import Mathlib

/-!
Shallow embedding of the J.A.R.V.I.S. voice+vision assistant overlay
(`App.tsx` / `components/JarvisHUD.tsx`): the annotation engine with its
bounded undo/redo history, the audio output playback scheduler, the
transcription aggregator, session teardown (`cleanup`), and the tool-call
handling of `mark_screen`.  All definitions are translated directly from
the TypeScript source; JavaScript numbers are modelled as rationals,
JavaScript objects whose runtime shape is not enforced (tool-call mark
descriptors spread with `...m`) as records of `Option`-typed fields.
-/

namespace Jarvis

/-- Point in the 0-1000 canonical coordinate space (`interface Point`). -/
structure Point where
  x : ℚ
  y : ℚ
deriving DecidableEq, Repr

/-- Runtime shape of a drawing object.  The TypeScript `interface Drawing`
declares `type`, `x`, `y` as required, but objects reaching the drawing list
through the tool-call path are built by spreading an unvalidated mark
descriptor (`{ id: ..., ...m }`), so at runtime every field except `id` may
be absent or hold an out-of-schema value.  We therefore model every field
except `id` as optional; `type` is kept as a raw string since unvalidated
descriptors may carry a tag outside `ToolType`. -/
structure Drawing where
  id : String
  type : Option String := none
  x : Option ℚ := none
  y : Option ℚ := none
  width : Option ℚ := none
  height : Option ℚ := none
  label : Option String := none
  points : Option (List Point) := none
  color : Option String := none
deriving DecidableEq, Repr

/-- The five recognized drawing variants (`type ToolType`). -/
def toolTypes : List String := ["path", "rect", "circle", "arrow", "text"]

/-- State of the drawing list and its history, mirroring the refs
`drawingsRef`, `historyRef`, `historyIndexRef` of `App.tsx` (their `useState`
mirrors always hold the same values).  `historyIndex` is an integer because
the source uses `-1` for the empty/initial cursor. -/
structure HistoryState where
  drawings : List Drawing
  history : List (List Drawing)
  historyIndex : Int
deriving DecidableEq, Repr

/-- Initial annotation state: empty list, empty history, cursor `-1`. -/
def initialHistoryState : HistoryState :=
  { drawings := [], history := [], historyIndex := -1 }

/-- `updateDrawings` (App.tsx lines 105-117): replace the drawing list,
truncate the redo branch (`history.slice(0, historyIndex + 1)`), push the
new snapshot, evict the oldest entry when the stack would exceed 50
(`if (newHistory.length > 50) newHistory.shift()`), and point the cursor at
the last entry.  `slice(0, n)` for `n ≥ 0` is `List.take n`; the cursor is
never below `-1` in any state the API produces, so `(historyIndex + 1).toNat`
agrees with the JavaScript slice bound. -/
def updateDrawings (st : HistoryState) (newDrawings : List Drawing) : HistoryState :=
  let truncated := st.history.take (st.historyIndex + 1).toNat
  let pushed := truncated ++ [newDrawings]
  let newHistory := if pushed.length > 50 then pushed.tail else pushed
  { drawings := newDrawings
    history := newHistory
    historyIndex := (newHistory.length : Int) - 1 }

/-- `undo` (App.tsx lines 119-132): with cursor above 0, step the cursor back
and restore the snapshot there (`historyRef.current[historyIndexRef.current]`,
modelled totally with `getD`); at cursor 0, move to `-1` and empty the list;
below 0, do nothing.  The history itself is never modified. -/
def undo (st : HistoryState) : HistoryState :=
  if st.historyIndex > 0 then
    let idx := st.historyIndex - 1
    { st with historyIndex := idx, drawings := st.history.getD idx.toNat [] }
  else if st.historyIndex = 0 then
    { st with historyIndex := -1, drawings := [] }
  else
    st

/-- `redo` (App.tsx lines 134-142): when the cursor is below `length - 1`,
step it forward and restore the snapshot there; otherwise do nothing. -/
def redo (st : HistoryState) : HistoryState :=
  if st.historyIndex < (st.history.length : Int) - 1 then
    let idx := st.historyIndex + 1
    { st with historyIndex := idx, drawings := st.history.getD idx.toNat [] }
  else
    st

/-- Iterated `updateDrawings` over a list of pushed snapshots, oldest first:
a finite sequence of `applyDrawings` calls. -/
def pushAll (st : HistoryState) : List (List Drawing) → HistoryState
  | [] => st
  | d :: ds => pushAll (updateDrawings st d) ds

/-! ### Output playback scheduler (onmessage, audio-output branch) -/

/-- State of the output playback scheduler: `nextStartTimeRef` and the set of
currently scheduled playback handles (`sourcesRef`), modelled as a list of
handle identifiers. -/
structure SchedulerState where
  nextStartTime : ℚ
  sources : List Nat
deriving DecidableEq, Repr

/-- Audio-output branch of `onmessage` (App.tsx lines 256-267) for one decoded
chunk: `nextStartTime := max(nextStartTime, currentTime)`, start the new
source at that time, advance `nextStartTime` by the chunk's duration, and add
the handle to the active set.  `now` is `outputAudioCtx.currentTime` when the
chunk is processed, `dur` is `buffer.duration`, `h` the fresh handle.  Returns
the scheduled start time together with the new state. -/
def scheduleChunk (st : SchedulerState) (now dur : ℚ) (h : Nat) :
    ℚ × SchedulerState :=
  let start := max st.nextStartTime now
  (start, { nextStartTime := start + dur, sources := h :: st.sources })

/-- Starts assigned to a sequence of chunks processed in arrival order with no
intervening interruption.  Each chunk is a pair `(now, dur)` of the playback
clock reading at processing time and the chunk duration. -/
def runChunks (st : SchedulerState) : List (ℚ × ℚ) → List ℚ
  | [] => []
  | c :: rest =>
    let (s, st') := scheduleChunk st c.1 c.2 0
    s :: runChunks st' rest

/-- Interruption branch of `onmessage` (App.tsx lines 316-320): stop every
handle in the active set inside `try/catch` (a stop failure is swallowed, so
the resulting state does not depend on which stops fail), clear the set, and
reset `nextStartTime` to 0.  `stopFails` says which handles throw on `stop()`;
the returned list records the handles on which a stop was attempted. -/
def handleInterrupted (st : SchedulerState) (stopFails : Nat → Bool) :
    SchedulerState × List (Nat × Bool) :=
  let attempted := st.sources.map (fun h => (h, stopFails h))
  ({ nextStartTime := 0, sources := [] }, attempted)

/-! ### Tool-call handling (onmessage, toolCall branch) -/

/-- Runtime shape of one element of a `mark_screen` call's `marks` array.
The tool schema declares `type`, `x`, `y` required and the rest optional, but
the handler performs no validation, so every field may be absent; a stray
`id` field would survive the spread `{ id: ..., ...m }` and override the
generated id, hence it is modelled too. -/
structure MarkObj where
  id : Option String := none
  type : Option String := none
  x : Option ℚ := none
  y : Option ℚ := none
  width : Option ℚ := none
  height : Option ℚ := none
  label : Option String := none
  points : Option (List Point) := none
  color : Option String := none
deriving DecidableEq, Repr

/-- A mark descriptor is well-formed when it satisfies the tool schema:
`type` is one of the five recognized variants and `x`, `y` are present. -/
def MarkObj.wellFormed (m : MarkObj) : Prop :=
  (∃ t, m.type = some t ∧ t ∈ toolTypes) ∧ m.x.isSome ∧ m.y.isSome

instance (m : MarkObj) : Decidable m.wellFormed := by
  unfold MarkObj.wellFormed
  exact inferInstance

/-- One entry of `message.toolCall.functionCalls`: correlation id, tool name,
and (for `mark_screen`) the `marks` array read from `fc.args`. -/
structure FunctionCall where
  id : String
  name : String
  marks : List MarkObj
deriving DecidableEq, Repr

/-- Acknowledgment sent back through `session.sendToolResponse`. -/
structure ToolResponse where
  id : String
  name : String
  result : String
deriving DecidableEq, Repr

/-- Conversion of the `i`-th mark of a `mark_screen` call into a drawing
object (App.tsx lines 273-276): an object literal whose `id` is
"ai-" ++ millisecond timestamp ++ "-" ++ index, followed by a spread of the
descriptor `m`.  The spread copies every field the descriptor actually has,
and a field the descriptor carries — including a stray `id` — wins over the
generated one, since the spread comes after the `id` entry. -/
def markToDrawing (now : Nat) (i : Nat) (m : MarkObj) : Drawing :=
  { id := m.id.getD ("ai-" ++ toString now ++ "-" ++ toString i)
    type := m.type
    x := m.x
    y := m.y
    width := m.width
    height := m.height
    label := m.label
    points := m.points
    color := m.color }

/-- Index-passing map over the marks array, the `marks.map((m, i) => ...)`
of the source. -/
def mapMarks (now : Nat) : Nat → List MarkObj → List Drawing
  | _, [] => []
  | i, m :: ms => markToDrawing now i m :: mapMarks now (i + 1) ms

/-- `mark_screen` branch of the tool-call loop (App.tsx lines 272-285): map
every element of `fc.args.marks` — with no per-mark validation — to a drawing
with a generated id, append all of them to the current drawing list via
`updateDrawings`, and send an acknowledgment correlated by `fc.id`. -/
def handleMarkScreen (now : Nat) (fc : FunctionCall) (st : HistoryState) :
    HistoryState × ToolResponse :=
  let newMarks := mapMarks now 0 fc.marks
  (updateDrawings st (st.drawings ++ newMarks),
   { id := fc.id, name := fc.name, result := "HUD marks deployed, Sir." })

/-- `clear_marks` branch (App.tsx lines 286-294): `updateDrawings([])` and an
acknowledgment. -/
def handleClearMarks (fc : FunctionCall) (st : HistoryState) :
    HistoryState × ToolResponse :=
  (updateDrawings st [],
   { id := fc.id, name := fc.name, result := "HUD clear." })

/-! ### Transcription aggregator (onmessage, transcription branches) -/

/-- Transcript buffers (`transcriptionRef`) together with the deadlines of
the pending `setTimeout` clears scheduled by turn-complete signals.  The
source never stores or cancels a timeout handle, so the pending list only
grows until a timer fires. -/
structure TransState where
  user : String
  ai : String
  pending : List Nat
deriving DecidableEq, Repr

/-- Events of the transcription branches of `onmessage` (App.tsx lines
299-313), each tagged with the millisecond time at which it runs on the event
loop: an incremental user (input) or assistant (output) transcription delta,
a turn-complete signal, and the firing of a scheduled clear with the given
deadline. -/
inductive TransEvent where
  | userText (s : String)
  | aiText (s : String)
  | turnComplete
  | fire (deadline : Nat)
deriving DecidableEq, Repr

/-- One step of the transcription aggregator.  Text deltas concatenate onto
the respective buffer and touch nothing else — in particular they do not
cancel any pending clear, because the source keeps no timeout handle.  A
turn-complete at time `t` schedules a clear at `t + 6000`.  A firing timer
with a genuinely pending deadline runs the timeout callback, which
unconditionally resets both buffers to the empty string. -/
def transStep (st : TransState) : Nat × TransEvent → TransState
  | (_, .userText s) => { st with user := st.user ++ s }
  | (_, .aiText s) => { st with ai := st.ai ++ s }
  | (t, .turnComplete) => { st with pending := st.pending ++ [t + 6000] }
  | (_, .fire d) =>
    if d ∈ st.pending then
      { user := "", ai := "", pending := st.pending.erase d }
    else
      st

/-- A timed event trace run through the transcription aggregator. -/
def transRun (st : TransState) (evs : List (Nat × TransEvent)) : TransState :=
  evs.foldl transStep st

/-! ### Session teardown (`cleanup`, App.tsx lines 144-172) -/

/-- An interval timer as the browser sees it: `active` is false once
`clearInterval` has run on its id.  Clearing an already-cleared interval is a
platform no-op. -/
structure Timer where
  active : Bool
deriving DecidableEq, Repr

/-- A media-stream track: `live` is false once it has ended.
`MediaStreamTrack.stop()` on an already-ended track is a platform no-op
(the release of the underlying device happens at most once). -/
structure Track where
  live : Bool
deriving DecidableEq, Repr

/-- The microphone stream: a list of tracks (`getTracks()`). -/
structure MediaStream where
  tracks : List Track
deriving DecidableEq, Repr

/-- The part of the `App` component state that `cleanup` touches: the UI
flags and annotation state it resets, and the refs holding the frame-capture
interval, the microphone stream, the scheduled playback sources, the two
audio contexts (tracked only by presence, since their refs are nulled), the
playback schedule offset, and the remote session promise. -/
structure AppState where
  isActive : Bool
  isConnecting : Bool
  drawings : List Drawing
  history : List (List Drawing)
  historyIndex : Int
  screenStreamSet : Bool
  voiceDataLen : Nat
  frameInterval : Option Timer
  micStream : Option MediaStream
  sources : List Nat
  inputCtxSet : Bool
  outputCtxSet : Bool
  analyserSet : Bool
  nextStartTime : ℚ
  sessionSet : Bool
deriving DecidableEq, Repr

/-- Count of actual resource releases performed by one `cleanup` call: timers
deactivated, device tracks moved from live to ended, playback sources on
which `stop()` was attempted, audio contexts on which `close()` was called,
and remote sessions on which `close()` was chained.  Re-running a release
primitive on an already-released resource performs no release (platform
semantics of `clearInterval` and `MediaStreamTrack.stop`). -/
structure CleanupEffects where
  timersStopped : Nat
  tracksStopped : Nat
  sourcesStopped : Nat
  contextsClosed : Nat
  sessionsClosed : Nat
deriving DecidableEq, Repr

/-- The absence of any release effect. -/
def CleanupEffects.none : CleanupEffects :=
  { timersStopped := 0, tracksStopped := 0, sourcesStopped := 0
    contextsClosed := 0, sessionsClosed := 0 }

/-- `if (frameIntervalRef.current) window.clearInterval(...)`: the ref is not
nulled, so the timer object stays in the ref; the interval is deactivated,
releasing it only if it was still active. -/
def clearFrameInterval : Option Timer → Option Timer × Nat
  | Option.none => (Option.none, 0)
  | some t => (some { active := false }, if t.active then 1 else 0)

/-- `micStreamRef.current.getTracks().forEach(t => t.stop())`: the ref is not
nulled; every track ends, and the release count is the number of tracks that
were still live. -/
def stopMicTracks : Option MediaStream → Option MediaStream × Nat
  | Option.none => (Option.none, 0)
  | some ms =>
    (some { tracks := ms.tracks.map (fun _ => { live := false }) },
     (ms.tracks.filter (fun t => t.live)).length)

/-- `cleanup` (App.tsx lines 144-172), run sequentially: reset the UI flags
and the annotation state, clear the frame interval (ref kept), stop the
microphone tracks (ref kept), stop and clear the scheduled sources
(`sourcesRef.current.clear()`), close and null both audio contexts, null the
analyser, reset `nextStartTime`, and close and null the session promise.
Every step is inside a guard or a `try`/`.catch`, so the steps always all
run; the returned effects count the resource releases the call performed. -/
def cleanup (st : AppState) : AppState × CleanupEffects :=
  let (fi, nTimers) := clearFrameInterval st.frameInterval
  let (ms, nTracks) := stopMicTracks st.micStream
  let nSources := st.sources.length
  let nCtx := (if st.inputCtxSet then 1 else 0) + (if st.outputCtxSet then 1 else 0)
  let nSess := if st.sessionSet then 1 else 0
  ({ isActive := false
     isConnecting := false
     drawings := []
     history := []
     historyIndex := -1
     screenStreamSet := false
     voiceDataLen := 0
     frameInterval := fi
     micStream := ms
     sources := []
     inputCtxSet := false
     outputCtxSet := false
     analyserSet := false
     nextStartTime := 0
     sessionSet := false },
   { timersStopped := nTimers
     tracksStopped := nTracks
     sourcesStopped := nSources
     contextsClosed := nCtx
     sessionsClosed := nSess })

/-- `n` successive `cleanup` calls, returning the final state. -/
def cleanupIter (st : AppState) : Nat → AppState
  | 0 => st
  | n + 1 => (cleanup (cleanupIter st n)).1

/-! ### Local pointer interaction (JarvisHUD.tsx lines 61-107) -/

/-- Local drawing state of the HUD component: `isDrawing`, `startPoint`,
`currentPoints`, `previewDrawing`. -/
structure HUDState where
  isDrawing : Bool
  startPoint : Option Point
  currentPoints : List Point
  previewDrawing : Option Drawing
deriving DecidableEq, Repr

/-- `handleMouseDown` (JarvisHUD.tsx lines 61-67): ignored while inactive;
otherwise record the normalized position as the start point and the first
sampled point and raise `isDrawing`.  The preview drawing is not touched —
it is only ever set by `handleMouseMove`. -/
def handleMouseDown (isActive : Bool) (pos : Point) (s : HUDState) : HUDState :=
  if isActive then
    { s with isDrawing := true, startPoint := some pos, currentPoints := [pos] }
  else
    s

/-- `handleMouseUp` (JarvisHUD.tsx lines 95-107): when not drawing or when no
preview drawing exists (no mouse-move happened since the mouse-down), only
lower `isDrawing` and drop the start point, committing nothing; otherwise
commit the preview with a fresh timestamp-derived id and the full-opacity
color and reset the interaction state.  The second component is the list the
handler passes to `setDrawings`, i.e. `some` exactly when a drawing is
committed. -/
def handleMouseUp (now : Nat) (s : HUDState) : HUDState × Option Drawing :=
  match s.isDrawing, s.previewDrawing with
  | true, some pd =>
    ({ isDrawing := false, startPoint := Option.none, currentPoints := [],
       previewDrawing := Option.none },
     some { pd with id := "user-" ++ toString now, color := some "#22d3ee" })
  | _, _ =>
    ({ s with isDrawing := false, startPoint := Option.none }, Option.none)

/-- Effect of releasing the pointer on the application's annotation state:
`setDrawings` is `updateDrawings`, called with `[...drawings, finalDrawing]`
exactly when `handleMouseUp` commits; otherwise the annotation state is not
touched at all. -/
def commitOnMouseUp (now : Nat) (hud : HUDState) (st : HistoryState) :
    HUDState × HistoryState :=
  match handleMouseUp now hud with
  | (hud', some d) => (hud', updateDrawings st (st.drawings ++ [d]))
  | (hud', Option.none) => (hud', st)

/-! ### Auxiliary definitions used by the verification -/

/-- Well-formedness of the annotation history: the cursor sits on the last
snapshot and the stack holds at most 50 entries.  This is the invariant
`updateDrawings` maintains. -/
def historyWF (st : HistoryState) : Prop :=
  st.historyIndex = (st.history.length : Int) - 1 ∧ st.history.length ≤ 50

/-- Representative state of a started (Active) session: the frame interval
is running, the microphone has a live track, two playback sources are
scheduled, both audio contexts and the analyser exist, playback is scheduled
into the future, and the remote session is open. -/
def activeAppState : AppState :=
  { isActive := true
    isConnecting := false
    drawings := []
    history := [[]]
    historyIndex := 0
    screenStreamSet := true
    voiceDataLen := 128
    frameInterval := some { active := true }
    micStream := some { tracks := [{ live := true }] }
    sources := [1, 2]
    inputCtxSet := true
    outputCtxSet := true
    analyserSet := true
    nextStartTime := 7
    sessionSet := true }

/-- The well-formed circle mark of the specification's test vector:
type "circle" at (500, 500) with width (radius) 50. -/
def goodCircleMark : MarkObj :=
  { type := some "circle", x := some 500, y := some 500, width := some 50 }

/-- A malformed mark descriptor: no `type`, no coordinates. -/
def malformedMark : MarkObj := {}

/-- A `mark_screen` invocation mixing a well-formed and a malformed mark. -/
def mixedMarksCall : FunctionCall :=
  { id := "call-5", name := "mark_screen", marks := [goodCircleMark, malformedMark] }

/-- A drawing list state whose only drawing already carries the id
"ai-0-0" — e.g. deposited by a `mark_screen` call handled during the same
millisecond 0 of the clock. -/
def collidingIdState : HistoryState :=
  { drawings := [{ id := "ai-0-0", type := some "text", x := some 1,
                   y := some 2, label := some "old" }]
    history := [[{ id := "ai-0-0", type := some "text", x := some 1,
                   y := some 2, label := some "old" }]]
    historyIndex := 0 }

/-- A stop oracle under which no playback handle fails to stop. -/
def noStopFailure : Nat → Bool := fun _ => false

/-- A stop oracle under which every playback handle fails to stop. -/
def allStopFailure : Nat → Bool := fun _ => true

/-! ## Theorems -/

/-- After any `updateDrawings` call the cursor equals `length - 1` by
construction. -/
theorem updateDrawings_historyIndex (st : HistoryState) (d : List Drawing) :
    (updateDrawings st d).historyIndex =
      ((updateDrawings st d).history.length : Int) - 1 :=
  rfl

/-- One `updateDrawings` call keeps the stack within the 50-entry bound. -/
theorem updateDrawings_length_le (st : HistoryState) (d : List Drawing)
    (h : st.history.length ≤ 50) :
    (updateDrawings st d).history.length ≤ 50 := by
  unfold updateDrawings
  simp only
  split
  · rename_i hgt
    rw [List.length_tail]
    have ht := List.length_take (st.historyIndex + 1).toNat st.history
    simp [List.length_append] at hgt ⊢
    omega
  · rename_i hgt
    simp [List.length_append] at hgt ⊢
    omega

/-- `updateDrawings` reestablishes the history well-formedness invariant from
the length bound alone. -/
theorem historyWF_updateDrawings (st : HistoryState) (d : List Drawing)
    (h : st.history.length ≤ 50) : historyWF (updateDrawings st d) :=
  ⟨updateDrawings_historyIndex st d, updateDrawings_length_le st d h⟩

/-- Any sequence of pushes starting from a well-formed state ends well
formed. -/
theorem historyWF_pushAll :
    ∀ (ds : List (List Drawing)) (st : HistoryState), historyWF st →
      historyWF (pushAll st ds) := by
  intro ds
  induction ds with
  | nil => intro st h; exact h
  | cons d ds ih =>
    intro st h
    exact ih (updateDrawings st d) (historyWF_updateDrawings st d h.2)

/-- Pushing onto a full 50-entry stack whose cursor sits at the top evicts
the oldest snapshot and leaves the cursor on the newly pushed snapshot. -/
theorem updateDrawings_evict_oldest (st : HistoryState) (d : List Drawing)
    (hlen : st.history.length = 50) (hidx : st.historyIndex = 49) :
    (updateDrawings st d).history = st.history.tail ++ [d] ∧
    (updateDrawings st d).historyIndex = 49 ∧
    (updateDrawings st d).history.getD 49 [] = d := by
  have h50 : (st.historyIndex + 1).toNat = 50 := by omega
  have htake : st.history.take 50 = st.history := by
    rw [← hlen]
    exact List.take_length st.history
  have hne : st.history ≠ [] := by
    intro hnil
    rw [hnil] at hlen
    simp at hlen
  obtain ⟨a, l, hal⟩ := List.exists_cons_of_ne_nil hne
  have hl : l.length = 49 := by
    rw [hal] at hlen
    simpa using hlen
  have htake2 : List.take 50 (a :: l) = a :: l := by
    rw [← hal]
    exact htake
  unfold updateDrawings
  simp only [h50, hal, htake2]
  have hgt : ((a :: l) ++ [d]).length > 50 := by
    simp [List.length_append, hl]
  rw [if_pos hgt]
  refine ⟨rfl, ?_, ?_⟩
  · simp [List.length_append, hl]
  · show (l ++ [d]).getD 49 [] = d
    rw [List.getD_append_right l [d] [] 49 (by omega)]
    simp [hl]

/-- C2: for every finite sequence of `applyDrawings` calls from the initial
state, after each call the stack length is at most 50 and the cursor
satisfies `-1 ≤ cursor ≤ length - 1`; and when a push would exceed 50
entries, the oldest snapshot is evicted while the cursor still points at the
newly pushed snapshot. -/
theorem claim_C2_history_bounded (ds : List (List Drawing))
    (st : HistoryState) (d : List Drawing)
    (hlen : st.history.length = 50) (hidx : st.historyIndex = 49) :
    ((pushAll initialHistoryState ds).history.length ≤ 50 ∧
     -1 ≤ (pushAll initialHistoryState ds).historyIndex ∧
     (pushAll initialHistoryState ds).historyIndex ≤
       ((pushAll initialHistoryState ds).history.length : Int) - 1) ∧
    ((updateDrawings st d).history = st.history.tail ++ [d] ∧
     (updateDrawings st d).historyIndex = 49 ∧
     (updateDrawings st d).history.getD 49 [] = d) := by
  constructor
  · have hwf := historyWF_pushAll ds initialHistoryState ⟨rfl, by simp [initialHistoryState]⟩
    obtain ⟨hcur, hle⟩ := hwf
    refine ⟨hle, ?_, le_of_eq hcur⟩
    omega
  · exact updateDrawings_evict_oldest st d hlen hidx

/-- Witness for C2: one push from the initial state, and an eviction from a
full 50-entry stack of empty snapshots. -/
theorem claim_C2_history_bounded_witness :
    ((({ drawings := [], history := List.replicate 50 [],
         historyIndex := 49 } : HistoryState).history.length = 50) ∧
     (({ drawings := [], history := List.replicate 50 [],
         historyIndex := 49 } : HistoryState).historyIndex = 49)) ∧
    (((pushAll initialHistoryState [[]]).history.length ≤ 50 ∧
      -1 ≤ (pushAll initialHistoryState [[]]).historyIndex ∧
      (pushAll initialHistoryState [[]]).historyIndex ≤
        ((pushAll initialHistoryState [[]]).history.length : Int) - 1) ∧
     ((updateDrawings
         { drawings := [], history := List.replicate 50 [],
           historyIndex := 49 } []).history =
        ({ drawings := [], history := List.replicate 50 [],
           historyIndex := 49 } : HistoryState).history.tail ++ [[]] ∧
      (updateDrawings
         { drawings := [], history := List.replicate 50 [],
           historyIndex := 49 } []).historyIndex = 49 ∧
      (updateDrawings
         { drawings := [], history := List.replicate 50 [],
           historyIndex := 49 } []).history.getD 49 [] = [])) :=
  ⟨⟨by simp, rfl⟩,
   claim_C2_history_bounded [[]]
     { drawings := [], history := List.replicate 50 [], historyIndex := 49 }
     [] (by simp) rfl⟩

/-- Tracks that have all been stopped contain no live track. -/
theorem filter_live_of_stopped (l : List Track) :
    ((l.map fun _ => ({ live := false } : Track)).filter fun t => t.live) = [] := by
  induction l with
  | nil => rfl
  | cons a l ih => simp [List.filter, ih]

/-- Stopping already-stopped tracks changes nothing. -/
theorem map_stop_of_stopped (l : List Track) :
    ((l.map fun _ => ({ live := false } : Track)).map
        fun _ => ({ live := false } : Track)) =
      l.map fun _ => ({ live := false } : Track) := by
  simp [List.map_map]

/-- A second `cleanup` call finds every resource already released: it leaves
the state unchanged and performs no release effect. -/
theorem cleanup_stable (st : AppState) :
    cleanup ((cleanup st).1) = ((cleanup st).1, CleanupEffects.none) := by
  obtain ⟨ia, ic, dr, hi, hx, ss, vd, fi, ms, so, ictx, octx, an, nst, ses⟩ := st
  cases fi <;> cases ms <;>
    simp [cleanup, clearFrameInterval, stopMicTracks, CleanupEffects.none,
      filter_live_of_stopped, map_stop_of_stopped]

/-- Every run of `n + 1` successive `cleanup` calls ends in the state the
first call produced. -/
theorem cleanupIter_stable (st : AppState) :
    ∀ n : Nat, cleanupIter st (n + 1) = (cleanup st).1 := by
  intro n
  induction n with
  | zero => rfl
  | succ k ih =>
    show (cleanup (cleanupIter st (k + 1))).1 = (cleanup st).1
    rw [ih, cleanup_stable st]

/-- C1: calling `cleanup` two or more times after a session leaves the state
exactly as the first call left it, and every call after the first performs
no further resource-release effect — each release (timer deactivation, track
ending, source stop, context close, session close) happens exactly once, on
the first call. -/
theorem claim_C1_teardown_idempotent (st : AppState) (n : Nat) (hn : 1 ≤ n) :
    cleanupIter st n = (cleanup st).1 ∧
    cleanup (cleanupIter st n) = ((cleanup st).1, CleanupEffects.none) := by
  obtain ⟨k, rfl⟩ : ∃ k, n = k + 1 := ⟨n - 1, by omega⟩
  refine ⟨cleanupIter_stable st k, ?_⟩
  rw [cleanupIter_stable st k, cleanup_stable st]

/-- Witness for C1: three teardown calls on a live Active-session state. -/
theorem claim_C1_teardown_idempotent_witness :
    (1 : Nat) ≤ 3 ∧
    (cleanupIter activeAppState 3 = (cleanup activeAppState).1 ∧
     cleanup (cleanupIter activeAppState 3) =
       ((cleanup activeAppState).1, CleanupEffects.none)) :=
  ⟨by norm_num, claim_C1_teardown_idempotent activeAppState 3 (by norm_num)⟩

/-- Unfolding of `runChunks` on a cons cell. -/
theorem runChunks_cons (st : SchedulerState) (c : ℚ × ℚ) (rest : List (ℚ × ℚ)) :
    runChunks st (c :: rest) =
      max st.nextStartTime c.1 ::
        runChunks
          { nextStartTime := max st.nextStartTime c.1 + c.2,
            sources := 0 :: st.sources } rest :=
  rfl

/-- `runChunks` assigns one start per chunk. -/
theorem runChunks_length :
    ∀ (chunks : List (ℚ × ℚ)) (st : SchedulerState),
      (runChunks st chunks).length = chunks.length := by
  intro chunks
  induction chunks with
  | nil => intro st; rfl
  | cons c rest ih =>
    intro st
    rw [runChunks_cons]
    simp [ih]

/-- Every scheduled start is at least the playback clock reading at the time
of scheduling. -/
theorem runChunks_start_ge_clock :
    ∀ (chunks : List (ℚ × ℚ)) (st : SchedulerState) (i : Nat),
      i < chunks.length →
      (chunks.getD i (0, 0)).1 ≤ (runChunks st chunks).getD i 0 := by
  intro chunks
  induction chunks with
  | nil =>
    intro st i hi
    simp at hi
  | cons c rest ih =>
    intro st i hi
    rw [runChunks_cons]
    cases i with
    | zero => simp
    | succ n =>
      simp only [List.getD_cons_succ]
      exact ih _ n (by simpa using hi)

/-- Consecutive scheduled starts are separated by at least the earlier
chunk's duration. -/
theorem runChunks_chain :
    ∀ (chunks : List (ℚ × ℚ)) (st : SchedulerState) (i : Nat),
      i + 1 < chunks.length →
      (runChunks st chunks).getD i 0 + (chunks.getD i (0, 0)).2 ≤
        (runChunks st chunks).getD (i + 1) 0 := by
  intro chunks
  induction chunks with
  | nil =>
    intro st i hi
    simp at hi
  | cons c rest ih =>
    intro st i hi
    rw [runChunks_cons]
    cases i with
    | zero =>
      have hrest : rest ≠ [] := by
        intro hnil
        rw [hnil] at hi
        simp at hi
      obtain ⟨c', rest', hr⟩ := List.exists_cons_of_ne_nil hrest
      subst hr
      rw [runChunks_cons]
      simp
    | succ n =>
      simp only [List.getD_cons_succ]
      exact ih _ n (by simpa using hi)

/-- C3: each chunk is scheduled at `max nextStartTime now`, after which
`nextStartTime` advances by the chunk's duration; consequently over any
sequence of chunks processed in arrival order, each start is at least the
previous start plus the previous duration, and at least the playback clock
at the time of scheduling. -/
theorem claim_C3_scheduler_sequential (st : SchedulerState) (now dur : ℚ)
    (hnd : Nat) (chunks : List (ℚ × ℚ)) (i j : Nat)
    (hi : i < chunks.length) (hj : j + 1 < chunks.length) :
    (scheduleChunk st now dur hnd).1 = max st.nextStartTime now ∧
    (scheduleChunk st now dur hnd).2.nextStartTime =
      max st.nextStartTime now + dur ∧
    (runChunks st chunks).length = chunks.length ∧
    (chunks.getD i (0, 0)).1 ≤ (runChunks st chunks).getD i 0 ∧
    (runChunks st chunks).getD j 0 + (chunks.getD j (0, 0)).2 ≤
      (runChunks st chunks).getD (j + 1) 0 :=
  ⟨rfl, rfl, runChunks_length chunks st,
   runChunks_start_ge_clock chunks st i hi,
   runChunks_chain chunks st j hj⟩

/-- Witness for C3 on a two-chunk sequence. -/
theorem claim_C3_scheduler_sequential_witness :
    ((1 : Nat) < ([((0 : ℚ), (1 : ℚ)), (2, 1)] : List (ℚ × ℚ)).length ∧
     (0 : Nat) + 1 < ([((0 : ℚ), (1 : ℚ)), (2, 1)] : List (ℚ × ℚ)).length) ∧
    ((scheduleChunk { nextStartTime := 0, sources := [] } 3 2 7).1 =
       max ({ nextStartTime := 0, sources := [] } : SchedulerState).nextStartTime 3 ∧
     (scheduleChunk { nextStartTime := 0, sources := [] } 3 2 7).2.nextStartTime =
       max ({ nextStartTime := 0, sources := [] } : SchedulerState).nextStartTime 3 + 2 ∧
     (runChunks { nextStartTime := 0, sources := [] } [(0, 1), (2, 1)]).length =
       ([((0 : ℚ), (1 : ℚ)), (2, 1)] : List (ℚ × ℚ)).length ∧
     (([((0 : ℚ), (1 : ℚ)), (2, 1)] : List (ℚ × ℚ)).getD 1 (0, 0)).1 ≤
       (runChunks { nextStartTime := 0, sources := [] } [(0, 1), (2, 1)]).getD 1 0 ∧
     (runChunks { nextStartTime := 0, sources := [] } [(0, 1), (2, 1)]).getD 0 0 +
         (([((0 : ℚ), (1 : ℚ)), (2, 1)] : List (ℚ × ℚ)).getD 0 (0, 0)).2 ≤
       (runChunks { nextStartTime := 0, sources := [] } [(0, 1), (2, 1)]).getD (0 + 1) 0) :=
  ⟨⟨by simp, by simp⟩,
   claim_C3_scheduler_sequential { nextStartTime := 0, sources := [] } 3 2 7
     [(0, 1), (2, 1)] 1 0 (by simp) (by simp)⟩

/-- C4: processing an interruption stops (best-effort) every handle in the
active set — the resulting state not depending on which individual stops
fail — leaves the active set empty, and resets `nextStartTime` to 0, so a
chunk arriving immediately afterwards is scheduled at the current playback
clock time itself. -/
theorem claim_C4_interruption_resets (st : SchedulerState)
    (stopFails stopFails' : Nat → Bool) (now dur : ℚ) (hnd : Nat)
    (hnow : 0 ≤ now) :
    (handleInterrupted st stopFails).1.sources = [] ∧
    (handleInterrupted st stopFails).1.nextStartTime = 0 ∧
    (handleInterrupted st stopFails).2.map Prod.fst = st.sources ∧
    (handleInterrupted st stopFails).1 = (handleInterrupted st stopFails').1 ∧
    (scheduleChunk (handleInterrupted st stopFails).1 now dur hnd).1 = now := by
  refine ⟨rfl, rfl, ?_, rfl, ?_⟩
  · show (st.sources.map fun h => (h, stopFails h)).map Prod.fst = st.sources
    rw [List.map_map]
    have hcomp : (Prod.fst ∘ fun h : Nat => (h, stopFails h)) = id := rfl
    rw [hcomp, List.map_id]
  · show max (0 : ℚ) now = now
    exact max_eq_right hnow

/-- Witness for C4: an interruption with two scheduled sources, one stop
failing and one not, followed by a chunk at clock time 3. -/
theorem claim_C4_interruption_resets_witness :
    (0 : ℚ) ≤ 3 ∧
    ((handleInterrupted { nextStartTime := 9, sources := [4, 5] } noStopFailure).1.sources = [] ∧
     (handleInterrupted { nextStartTime := 9, sources := [4, 5] } noStopFailure).1.nextStartTime = 0 ∧
     (handleInterrupted { nextStartTime := 9, sources := [4, 5] } noStopFailure).2.map Prod.fst =
       ({ nextStartTime := 9, sources := [4, 5] } : SchedulerState).sources ∧
     (handleInterrupted { nextStartTime := 9, sources := [4, 5] } noStopFailure).1 =
       (handleInterrupted { nextStartTime := 9, sources := [4, 5] } allStopFailure).1 ∧
     (scheduleChunk
        (handleInterrupted { nextStartTime := 9, sources := [4, 5] } noStopFailure).1
        3 2 6).1 = 3) :=
  ⟨by norm_num,
   claim_C4_interruption_resets { nextStartTime := 9, sources := [4, 5] }
     noStopFailure allStopFailure 3 2 6 (by norm_num)⟩

/-- C7: for every history state with snapshots `[A, B, C]` and cursor 2,
`undo` yields cursor 1 with drawing list `B` (the history untouched), and a
subsequent `applyDrawings D` yields the stack `[A, B, D]` with cursor 2:
pushing after undo discards all snapshots beyond the current cursor. -/
theorem claim_C7_push_after_undo_truncates_redo
    (A B C D dr : List Drawing) :
    undo { drawings := dr, history := [A, B, C], historyIndex := 2 } =
      { drawings := B, history := [A, B, C], historyIndex := 1 } ∧
    updateDrawings
        (undo { drawings := dr, history := [A, B, C], historyIndex := 2 }) D =
      { drawings := D, history := [A, B, D], historyIndex := 2 } := by
  constructor
  · simp [undo]
  · simp [undo, updateDrawings]

/-- C8: for every non-empty history, `undo` at cursor 0 moves the cursor to
`-1` and empties the drawing list, and `redo` at cursor `-1` moves the cursor
to 0 and restores snapshot 0 as the drawing list. -/
theorem claim_C8_undo_redo_at_boundary
    (st st' : HistoryState)
    (hne : st.history ≠ []) (h0 : st.historyIndex = 0)
    (h' : st'.history ≠ []) (h1 : st'.historyIndex = -1) :
    undo st = { st with historyIndex := -1, drawings := [] } ∧
    redo st' = { st' with historyIndex := 0, drawings := st'.history.headD [] } := by
  constructor
  · simp [undo, h0]
  · have hlen : 0 < st'.history.length := List.length_pos.mpr h'
    have hcond : st'.historyIndex < (st'.history.length : Int) - 1 := by
      rw [h1]; omega
    obtain ⟨a, l, hal⟩ := List.exists_cons_of_ne_nil h'
    simp [redo, hcond, h1, hal]
    intro hcontra
    exfalso
    omega

/-- Witness for C8 at a one-snapshot history. -/
theorem claim_C8_undo_redo_at_boundary_witness :
    (([[]] : List (List Drawing)) ≠ [] ∧
     ({ drawings := [], history := [[]], historyIndex := 0 } : HistoryState).historyIndex = 0 ∧
     ({ drawings := [], history := [[]], historyIndex := -1 } : HistoryState).historyIndex = -1) ∧
    (undo { drawings := [], history := [[]], historyIndex := 0 } =
      { drawings := [], history := [[]], historyIndex := -1 } ∧
     redo { drawings := [], history := [[]], historyIndex := -1 } =
      { drawings := [], history := [[]], historyIndex := 0 }) :=
  ⟨⟨by decide, rfl, rfl⟩,
   claim_C8_undo_redo_at_boundary
     { drawings := [], history := [[]], historyIndex := 0 }
     { drawings := [], history := [[]], historyIndex := -1 }
     (by decide) rfl (by decide) rfl⟩

/-- The last element of a list ending in `x`, read off at the cursor
position `length - 1`, is `x`. -/
theorem getD_concat_self {α : Type} (l : List α) (x d : α) :
    (l ++ [x]).getD (((l ++ [x]).length : Int) - 1).toNat d = x := by
  have hlen : (l ++ [x]).length = l.length + 1 := by simp
  have hidx : (((l ++ [x]).length : Int) - 1).toNat = l.length := by
    rw [hlen]
    omega
  rw [hidx, List.getD_append_right l [x] d l.length (le_refl _)]
  simp

/-- After any `updateDrawings` call, the history entry at the cursor is the
snapshot that was just pushed. -/
theorem updateDrawings_snapshot (st : HistoryState) (d : List Drawing) :
    (updateDrawings st d).history.getD
      ((updateDrawings st d).historyIndex).toNat [] = d := by
  unfold updateDrawings
  simp only
  split
  · rename_i hgt
    rcases htr : st.history.take (st.historyIndex + 1).toNat with _ | ⟨a, l⟩
    · rw [htr] at hgt
      simp at hgt
    · exact getD_concat_self l d []
  · exact getD_concat_self _ d []

/-- Each mark produces exactly one drawing. -/
theorem mapMarks_length (now : Nat) :
    ∀ (i : Nat) (ms : List MarkObj), (mapMarks now i ms).length = ms.length := by
  intro i ms
  induction ms generalizing i with
  | nil => rfl
  | cons m ms ih => simp [mapMarks, ih]

/-- C5 counterexample: a `mark_screen` call whose marks are one well-formed
circle and one malformed descriptor.  The handler appends BOTH to the
drawing list — the malformed mark is converted too (its drawing has no
`type`), not dropped — so the resulting list has two entries where the claim
predicts one. -/
theorem claim_C5_counterexample :
    ¬ malformedMark.wellFormed ∧
    goodCircleMark.wellFormed ∧
    (handleMarkScreen 0 mixedMarksCall initialHistoryState).1.drawings.length = 2 ∧
    (handleMarkScreen 0 mixedMarksCall initialHistoryState).1.drawings.map
        Drawing.type = [some "circle", Option.none] := by
  decide

/-- C5 amended: the handler converts and appends every supplied mark —
malformed descriptors included, with no per-mark validation — pushes the
result as a history snapshot, and still sends an acknowledgment correlated
to the call's id.  In particular every well-formed mark is appended. -/
theorem claim_C5_malformed_marks_kept (now : Nat) (fc : FunctionCall)
    (st : HistoryState) :
    (handleMarkScreen now fc st).1.drawings =
      st.drawings ++ mapMarks now 0 fc.marks ∧
    (handleMarkScreen now fc st).1.drawings.length =
      st.drawings.length + fc.marks.length ∧
    (handleMarkScreen now fc st).1.history.getD
      ((handleMarkScreen now fc st).1.historyIndex).toNat [] =
      (handleMarkScreen now fc st).1.drawings ∧
    (handleMarkScreen now fc st).2.id = fc.id ∧
    (handleMarkScreen now fc st).2.result = "HUD marks deployed, Sir." := by
  refine ⟨rfl, ?_, ?_, rfl, rfl⟩
  · show (updateDrawings st (st.drawings ++ mapMarks now 0 fc.marks)).drawings.length = _
    simp [updateDrawings, mapMarks_length]
  · exact updateDrawings_snapshot st _

/-- C6 counterexample: a turn-complete at time 0 schedules a clear for time
6000; the user text "Hello" arriving at time 1000 — before the delay
elapses — does not cancel or supersede the pending clear, and when the timer
fires at 6000 it wipes the newly accumulated text. -/
theorem claim_C6_counterexample :
    transRun { user := "", ai := "", pending := [] }
        [(0, TransEvent.turnComplete), (1000, TransEvent.userText "Hello")] =
      { user := "Hello", ai := "", pending := [6000] } ∧
    transRun { user := "", ai := "", pending := [] }
        [(0, TransEvent.turnComplete), (1000, TransEvent.userText "Hello"),
         (6000, TransEvent.fire 6000)] =
      { user := "", ai := "", pending := [] } := by
  decide

/-- C6 amended: arriving text neither cancels nor supersedes a pending
clear — the source stores no timeout handle — and the clear scheduled by a
turn-complete at time `t` fires unconditionally at `t + 6000`, emptying both
buffers regardless of any text accumulated in between. -/
theorem claim_C6_pending_clear_not_canceled (st : TransState)
    (t tu : Nat) (s : String) :
    (transStep st (tu, TransEvent.userText s)).pending = st.pending ∧
    (transStep st (tu, TransEvent.aiText s)).pending = st.pending ∧
    (transRun st [(t, TransEvent.turnComplete), (tu, TransEvent.userText s),
                  (t + 6000, TransEvent.fire (t + 6000))]).user = "" ∧
    (transRun st [(t, TransEvent.turnComplete), (tu, TransEvent.userText s),
                  (t + 6000, TransEvent.fire (t + 6000))]).ai = "" := by
  have hmem : t + 6000 ∈ st.pending ++ [t + 6000] := by simp
  refine ⟨rfl, rfl, ?_, ?_⟩ <;>
    simp [transRun, transStep, hmem]

/-- C9 counterexample: when the current drawing list already holds a drawing
with id "ai-0-0" (for instance from an earlier `mark_screen` call handled in
the same millisecond), handling the circle invocation at clock 0 generates
the very same id "ai-0-0" again, so the new drawing's id is NOT distinct
from the ids already in the list. -/
theorem claim_C9_counterexample :
    (handleMarkScreen 0
        { id := "call-9", name := "mark_screen", marks := [goodCircleMark] }
        collidingIdState).1.drawings.map Drawing.id = ["ai-0-0", "ai-0-0"] ∧
    ¬ ((handleMarkScreen 0
          { id := "call-9", name := "mark_screen", marks := [goodCircleMark] }
          collidingIdState).1.drawings.map Drawing.id).Nodup := by
  decide

/-- C9 amended: handling the circle invocation appends exactly one drawing
with variant circle, center (500, 500) and radius (width) 50, carrying the
generated id built from the millisecond timestamp, and sends an
acknowledgment correlated to the call id; the generated id is distinct from
all ids already in the list provided no existing drawing already bears that
timestamp-derived id. -/
theorem claim_C9_circle_mark_appended (st : HistoryState) (now : Nat)
    (cid : String)
    (hfresh : ("ai-" ++ toString now ++ "-0") ∉ st.drawings.map Drawing.id) :
    (handleMarkScreen now
        { id := cid, name := "mark_screen", marks := [goodCircleMark] }
        st).1.drawings =
      st.drawings ++
        [{ id := "ai-" ++ toString now ++ "-0", type := some "circle",
           x := some 500, y := some 500, width := some 50 }] ∧
    ("ai-" ++ toString now ++ "-0") ∉ st.drawings.map Drawing.id ∧
    (handleMarkScreen now
        { id := cid, name := "mark_screen", marks := [goodCircleMark] }
        st).2.id = cid := by
  refine ⟨?_, hfresh, rfl⟩
  show (updateDrawings st
      (st.drawings ++ mapMarks now 0 [goodCircleMark])).drawings = _
  simp [updateDrawings, mapMarks, markToDrawing, goodCircleMark]
  rw [String.append_assoc]
  rfl

/-- Witness for C9 amended: the circle invocation on the empty initial
state at clock 0 with call id "call-9w". -/
theorem claim_C9_circle_mark_appended_witness :
    (("ai-" ++ toString 0 ++ "-0") ∉
      initialHistoryState.drawings.map Drawing.id) ∧
    ((handleMarkScreen 0
        { id := "call-9w", name := "mark_screen", marks := [goodCircleMark] }
        initialHistoryState).1.drawings =
      initialHistoryState.drawings ++
        [{ id := "ai-" ++ toString 0 ++ "-0", type := some "circle",
           x := some 500, y := some 500, width := some 50 }] ∧
     ("ai-" ++ toString 0 ++ "-0") ∉
       initialHistoryState.drawings.map Drawing.id ∧
     (handleMarkScreen 0
        { id := "call-9w", name := "mark_screen", marks := [goodCircleMark] }
        initialHistoryState).2.id = "call-9w") :=
  ⟨by simp [initialHistoryState],
   claim_C9_circle_mark_appended initialHistoryState 0 "call-9w"
     (by simp [initialHistoryState])⟩

/-- C10: a mouse-down followed immediately by a mouse-up with no intervening
mouse-move (so no preview drawing exists) commits no drawing and leaves the
annotation state — drawing list and history both — completely unchanged: a
bare click never creates an annotation or consumes an undo step. -/
theorem claim_C10_bare_click_commits_nothing (hud : HUDState)
    (st : HistoryState) (act : Bool) (pos : Point) (now : Nat)
    (hprev : hud.previewDrawing = Option.none) :
    (handleMouseUp now (handleMouseDown act pos hud)).2 = Option.none ∧
    (commitOnMouseUp now (handleMouseDown act pos hud) st).2 = st := by
  have hp : (handleMouseDown act pos hud).previewDrawing = Option.none := by
    unfold handleMouseDown
    split <;> simp [hprev]
  cases hd : (handleMouseDown act pos hud).isDrawing <;>
    simp [handleMouseUp, commitOnMouseUp, hp, hd]

/-- Witness for C10: a bare click at the origin on idle local state over the
initial annotation state. -/
theorem claim_C10_bare_click_commits_nothing_witness :
    (({ isDrawing := false, startPoint := Option.none, currentPoints := [],
        previewDrawing := Option.none } : HUDState).previewDrawing =
      Option.none) ∧
    ((handleMouseUp 0
        (handleMouseDown true { x := 0, y := 0 }
          { isDrawing := false, startPoint := Option.none, currentPoints := [],
            previewDrawing := Option.none })).2 = Option.none ∧
     (commitOnMouseUp 0
        (handleMouseDown true { x := 0, y := 0 }
          { isDrawing := false, startPoint := Option.none, currentPoints := [],
            previewDrawing := Option.none })
        initialHistoryState).2 = initialHistoryState) :=
  ⟨rfl,
   claim_C10_bare_click_commits_nothing
     { isDrawing := false, startPoint := Option.none, currentPoints := [],
       previewDrawing := Option.none }
     initialHistoryState true { x := 0, y := 0 } 0 rfl⟩

end Jarvis
